import Mathlib

/-!
Shallow embedding of the read-ingestion layer of bowtie2 (`pat.h`):
the per-thread batch buffer, the file-backed pattern source, the
solo/dual composers and the helpers they use.  Definitions follow the
C++ source; parts whose bodies live outside this tree (pat.cpp, read.h,
libc/zlib) are modelled from the specification and say so in their doc
comments.
-/

namespace Pat

/-- Modelled from the spec: the `Read` record is declared in `read.h`,
which is not part of this tree.  Only the raw buffer (`readOrigBuf`,
the original line(s) as read from the file) and its `reset` matter for
the code verified here. -/
structure Read where
  readOrigBuf : List Nat
deriving Repr, DecidableEq

/-- Modelled from the spec: `Read::reset` clears the record, in
particular its raw buffer. -/
def Read.reset (_ : Read) : Read := ⟨[]⟩

instance : Inhabited Read := ⟨⟨[]⟩⟩

/-- `TReadId` is `uint64_t`; this is `std::numeric_limits<TReadId>::max()`. -/
def TReadIdMax : Nat := 2 ^ 64 - 1

/-- All per-thread storage for input read data (`PerThreadReadBuf`).
`bufa_`/`bufb_` are the mate-a and mate-b read buffers (the constructor
resizes both to `max_buf_`, so the list lengths play the role of
`bufa_.size()`), `cur_buf_` the cursor, `rdid_` the id of the read at
offset 0. -/
structure PerThreadReadBuf where
  bufa_ : List Read
  bufb_ : List Read
  cur_buf_ : Nat
  rdid_ : Nat
deriving Repr, DecidableEq

/-- `PerThreadReadBuf::reset`: cursor to `bufa_.size()`, every read in
both buffers reset, `rdid_` to the MAX sentinel. -/
def PerThreadReadBuf.reset (pt : PerThreadReadBuf) : PerThreadReadBuf :=
  { bufa_ := pt.bufa_.map Read.reset
    bufb_ := pt.bufb_.map Read.reset
    cur_buf_ := pt.bufa_.length
    rdid_ := TReadIdMax }

/-- `PerThreadReadBuf::exhausted`:
`cur_buf_ >= bufa_.size()-1 || bufa_[cur_buf_+1].readOrigBuf.empty()`.
The C++ `||` short-circuits, so the element access only happens when
`cur_buf_ + 1` is in bounds; `getD` supplies a dummy for the branch the
code never takes. -/
def PerThreadReadBuf.exhausted (pt : PerThreadReadBuf) : Bool :=
  decide (pt.cur_buf_ ≥ pt.bufa_.length - 1) ||
    (pt.bufa_.getD (pt.cur_buf_ + 1) default).readOrigBuf.isEmpty

/-- `PerThreadReadBuf::rdid`: returns `rdid_ + cur_buf_` (uint64
arithmetic), under the assertion `rdid_ != MAX`. -/
def PerThreadReadBuf.rdid (pt : PerThreadReadBuf) : Nat :=
  (pt.rdid_ + pt.cur_buf_) % 2 ^ 64

/-- `PerThreadReadBuf::setReadId`: set read id of first read in buffer. -/
def PerThreadReadBuf.setReadId (pt : PerThreadReadBuf) (rdid : Nat) :
    PerThreadReadBuf :=
  { pt with rdid_ := rdid }

/-- `PerThreadReadBuf::init`: cursor back to 0 after a batch is loaded. -/
def PerThreadReadBuf.init (pt : PerThreadReadBuf) : PerThreadReadBuf :=
  { pt with cur_buf_ := 0 }

/-- The extension computed by `CFilePatternSource::is_gzipped_file`:
`pos = filename.find_last_of(".")`, and the extension is
`filename.substr(pos + 1)`, or the empty string when there is no dot.
The characters after the last dot are the characters before the first
dot of the reversed string. -/
def extOf (filename : List Char) : List Char :=
  if '.' ∈ filename then
    (filename.reverse.takeWhile (fun c => c ≠ '.')).reverse
  else []

/-- `CFilePatternSource::is_gzipped_file`.  The `stat` call and the
`S_ISFIFO` test are environment queries, passed in as the booleans
`statOk` (the `stat` call succeeded) and `isFifo` (the mode bits say
FIFO); when `stat` fails the code only prints a diagnostic and falls
through to the extension test. -/
def is_gzipped_file (statOk isFifo : Bool) (filename : List Char) : Bool :=
  if statOk && isFifo then true
  else
    decide (extOf filename = [] ∨ extOf filename = ['g', 'z'] ∨
      extOf filename = ['Z'])

/-- The spec-side predicate, following the claim for the exhausted
test: the cursor is on or past the second-to-last slot, or the raw
buffer of the read at index `cur_buf_ + 1` is empty. -/
def exhaustedClaimed (pt : PerThreadReadBuf) : Prop :=
  pt.cur_buf_ ≥ pt.bufa_.length - 1 ∨
    ∃ hlt : pt.cur_buf_ + 1 < pt.bufa_.length,
      (pt.bufa_.get ⟨pt.cur_buf_ + 1, hlt⟩).readOrigBuf = []

/-- The spec-side predicate, following the claim's words: gzip iff the
path is a FIFO or the extension is `gz` or `Z`; every other filename,
including one with no extension at all, is not gzip. -/
def is_gzipped_claimed (isFifo : Bool) (filename : List Char) : Bool :=
  isFifo || decide (extOf filename = ['g', 'z']) ||
    decide (extOf filename = ['Z'])

/-- The amended spec-side predicate: gzip iff the path is a FIFO, or
the filename ends in `.gz` or `.Z`, or the extension is empty — the
filename contains no dot at all, or ends with a dot. -/
def is_gzipped_amended (isFifo : Bool) (filename : List Char) : Bool :=
  isFifo || !(decide ('.' ∈ filename)) ||
    decide (filename.getLast? = some '.') ||
    List.isSuffixOf ['.', 'g', 'z'] filename ||
    List.isSuffixOf ['.', 'Z'] filename

/-- `FastaPatternSource::skipToNextFastaRecord`, over the remaining
bytes of the `FileBuf`: repeatedly `get()` until the byte is `'>'`
(62) and return it; `get()` at end of input yields -1 and `eof()`
becomes true, so the loop returns -1.  The second component is the
stream left unconsumed. -/
def skipToNextFastaRecord : List Nat → Int × List Nat
  | [] => (-1, [])
  | c :: rest => if c = 62 then (62, rest) else skipToNextFastaRecord rest

/-- State of `CFilePatternSource` relevant to `reset`: the number of
input files, the cursor `filecur_` into that list, the inherited
`readCnt_`, whether a file is open and which one. -/
structure CFilePatternSource where
  numFiles : Nat
  filecur_ : Nat
  readCnt_ : Nat
  is_open_ : Bool
  openedFile : Option Nat
deriving Repr, DecidableEq

/-- Modelled from the spec: the body of `CFilePatternSource::open()`
lives in pat.cpp; per the spec it (re)opens the file `infiles_[filecur_]`
("rewind to file 0, reopen"). -/
def CFilePatternSource.openFile (s : CFilePatternSource) : CFilePatternSource :=
  { s with is_open_ := true, openedFile := some s.filecur_ }

/-- `CFilePatternSource::reset`:
`PatternSource::reset(); filecur_ = 0, open(); filecur_++;` where the
inherited `PatternSource::reset` clears `readCnt_`. -/
def CFilePatternSource.reset (s : CFilePatternSource) : CFilePatternSource :=
  let s1 := { s with readCnt_ := 0 }
  let s2 := { s1 with filecur_ := 0 }
  let s3 := s2.openFile
  { s3 with filecur_ := s3.filecur_ + 1 }

/-- The assertions in the `FastaContinuousPatternSource` constructor:
`assert_gt(freq_, 0)` and `assert_leq(length_, 1024)`, with
`length_ = sampleLen` and `freq_ = sampleFreq`. -/
def fastaContinuousCtorAsserts (sampleLen sampleFreq : Nat) : Bool :=
  decide (0 < sampleFreq) && decide (sampleLen ≤ 1024)

/-- Modelled from the spec: the FASTA-Continuous light parser
(pat.cpp) keeps "an internal ring buffer of size `L`" inside the
1024-byte `buf_`, so the positions it touches are `0 .. sampleLen-1`. -/
def windowIndices (sampleLen : Nat) : List Nat := List.range sampleLen

/-- Modelled from the spec: `CFilePatternSource::nextBatchImpl`
(pat.cpp) reserves the id range for a batch of `k` light-parsed reads:
the base is the current `readCnt_`, and `readCnt_` advances by `k`. -/
def grantBatch (readCnt k : Nat) : Nat × Nat := (readCnt, readCnt + k)

/-- The ids handed out over a run: starting from counter value `n`,
each grant of `k` reads receives `[base, base + k)` where
`(base, n') = grantBatch n k`, and the run continues from `n'`. -/
def grantedIds (n : Nat) : List Nat → List Nat
  | [] => []
  | k :: ks =>
    let g := grantBatch n k
    List.range' g.1 k ++ grantedIds g.2 ks

/-- A `PatternSource*` pointer: `none` is NULL, `some a` an address.
The per-source state the composer code touches (`readCnt_`, cleared by
the virtual `reset()`) lives in a heap `Nat → Nat` from addresses to
counters. -/
abbrev SrcPtr := Option Nat

/-- The assertions in the `DualPatternComposer` constructor:
`assert_eq(srca_->size(), srcb_->size())`; for every `i`,
`assert((*srca_)[i] != NULL)`; and for every `i`, `j`,
`assert_neq((*srca_)[i], (*srcb_)[j])` — pointer comparisons. -/
def dualCtorAsserts (srca srcb : List SrcPtr) : Bool :=
  decide (srca.length = srcb.length) &&
    srca.all (fun a => a.isSome) &&
    srca.all (fun a => srcb.all (fun b => decide (a ≠ b)))

/-- One iteration of the loop in `DualPatternComposer::reset`: call
`(*srca_)[i]->reset()` and, when `(*srcb_)[i] != NULL`,
`(*srcb_)[i]->reset()`; `PatternSource::reset` clears `readCnt_`. -/
def resetPair (h : Nat → Nat) (p : SrcPtr × SrcPtr) : Nat → Nat :=
  let h1 := match p.1 with
    | some x => Function.update h x 0
    | none => h
  match p.2 with
  | some y => Function.update h1 y 0
  | none => h1

/-- The heap after the loop in `DualPatternComposer::reset` over the
parallel vectors (equal lengths are asserted at construction, so the
zip loses nothing). -/
def dualResetHeap (srca srcb : List SrcPtr) (h : Nat → Nat) : Nat → Nat :=
  (srca.zip srcb).foldl resetPair h

/-- `DualPatternComposer` state: round-robin cursor and the two
parallel pointer vectors. -/
structure DualPatternComposer where
  cur_ : Nat
  srca_ : List SrcPtr
  srcb_ : List SrcPtr
deriving Repr, DecidableEq

/-- `DualPatternComposer::reset`: reset `(*srca_)[i]` and non-NULL
`(*srcb_)[i]` for every `i`, then `cur_ = 0`. -/
def DualPatternComposer.reset (c : DualPatternComposer) (h : Nat → Nat) :
    DualPatternComposer × (Nat → Nat) :=
  ({ c with cur_ := 0 }, dualResetHeap c.srca_ c.srcb_ h)

/-- `SoloPatternComposer` state: round-robin cursor and the pointer
vector. -/
structure SoloPatternComposer where
  cur_ : Nat
  src_ : List SrcPtr
deriving Repr, DecidableEq

/-- The behaviour of the virtual `PatternSource::parse` of the source
at a given address: it rewrites the two reads and returns a success
flag. -/
abbrev ParseEnv := Nat → Read → Read → Nat → Bool × Read × Read

/-- `SoloPatternComposer::parse`: `return (*src_)[0]->parse(ra, rb, rdid);`
— always the source at index 0.  Dereferencing NULL is undefined in
C++; the model returns a failure unchanged in that (asserted-away)
case. -/
def SoloPatternComposer.parse (env : ParseEnv) (c : SoloPatternComposer)
    (ra rb : Read) (rdid : Nat) : Bool × Read × Read :=
  match c.src_.getD 0 none with
  | some x => env x ra rb rdid
  | none => (false, ra, rb)

/-- `DualPatternComposer::parse`: `return (*srca_)[0]->parse(ra, rb, rdid);`
— always the mate-a source at index 0. -/
def DualPatternComposer.parse (env : ParseEnv) (c : DualPatternComposer)
    (ra rb : Read) (rdid : Nat) : Bool × Read × Read :=
  match c.srca_.getD 0 none with
  | some x => env x ra rb rdid
  | none => (false, ra, rb)

/-- Modelled from the spec: a byte-oriented stream with `get()` → next
byte or -1 on EOF and `unget(b)` → push one byte back, with a
guaranteed single pushback slot.  This is the behaviour of
`getc_unlocked`/`ungetc` (libc) and `gzgetc`/`gzungetc` (zlib), which
are outside this tree. -/
structure ByteReader where
  pushback : Option Int
  stream : List Int
deriving Repr, DecidableEq

/-- Modelled from the spec: `get()` returns the pushed-back byte first,
else the next stream byte, else -1 at end of input. -/
def ByteReader.get (r : ByteReader) : Int × ByteReader :=
  match r.pushback with
  | some b => (b, { r with pushback := none })
  | none =>
    match r.stream with
    | [] => (-1, r)
    | c :: rest => (c, { r with stream := rest })

/-- Modelled from the spec: `unget(b)` stores `b` in the single
pushback slot; pushing back EOF (-1) or pushing onto an occupied slot
fails, returning -1 and leaving the stream unchanged. -/
def ByteReader.unget (b : Int) (r : ByteReader) : Int × ByteReader :=
  if b = -1 ∨ r.pushback ≠ none then (-1, r)
  else (b, { r with pushback := some b })

/-- The I/O state a `CFilePatternSource` dispatches over: the
`compressed_` flag and the two handles `fp_` (plain) and `zfp_`
(gzip). -/
structure CFileStream where
  compressed_ : Bool
  fp_ : ByteReader
  zfp_ : ByteReader
deriving Repr, DecidableEq

/-- `CFilePatternSource::getc_wrapper`:
`return compressed_ ? gzgetc(zfp_) : getc_unlocked(fp_);`. -/
def getc_wrapper (s : CFileStream) : Int × CFileStream :=
  if s.compressed_ then
    let g := s.zfp_.get
    (g.1, { s with zfp_ := g.2 })
  else
    let g := s.fp_.get
    (g.1, { s with fp_ := g.2 })

/-- `CFilePatternSource::ungetc_wrapper`:
`return compressed_ ? gzungetc(c, zfp_) : ungetc(c, fp_);`. -/
def ungetc_wrapper (c : Int) (s : CFileStream) : Int × CFileStream :=
  if s.compressed_ then
    let g := s.zfp_.unget c
    (g.1, { s with zfp_ := g.2 })
  else
    let g := s.fp_.unget c
    (g.1, { s with fp_ := g.2 })

/-- Sample parse behaviour for concrete instantiations. -/
def sampleParseEnv : ParseEnv := fun a ra rb _ => (decide (0 < a), ra, rb)

/-- A sample read with a nonempty raw buffer. -/
def sampleRead : Read := ⟨[65]⟩

/-- A per-thread buffer holding a completely full batch of two reads,
cursor on the last slot. -/
def sampleBufFull : PerThreadReadBuf := ⟨[⟨[65]⟩, ⟨[66]⟩], [⟨[]⟩, ⟨[]⟩], 1, 0⟩

/-- A per-thread buffer with base id 5 and cursor 3. -/
def sampleBufId : PerThreadReadBuf := ⟨[], [], 3, 5⟩

/-- A gzip-backed stream about to deliver bytes 66 then 67. -/
def sampleGzStream : CFileStream := ⟨true, ⟨none, []⟩, ⟨none, [66, 67]⟩⟩

/-- `sampleGzStream` after one `getc_wrapper`. -/
def sampleGzAfter : CFileStream := ⟨true, ⟨none, []⟩, ⟨none, [67]⟩⟩

/-- A dual composer over one pair of sources, at addresses 1 and 2. -/
def sampleDual : DualPatternComposer := ⟨5, [some 1], [some 2]⟩

/-- A heap in which every source has counted 9 reads. -/
def sampleHeap : Nat → Nat := fun _ => 9

/-! ## Theorems -/

/-- C8: after `CFilePatternSource::reset()` — called by the master with
no workers active — the count of reads emitted so far is 0 and the
source is positioned at file 0 of its input list with that file
reopened (`filecur_` equals 1), regardless of the state before the
call. -/
theorem cfile_reset_state (s : CFilePatternSource) :
    s.reset.readCnt_ = 0 ∧ s.reset.filecur_ = 1 ∧
      s.reset.openedFile = some 0 ∧ s.reset.is_open_ = true :=
  ⟨rfl, rfl, rfl, rfl⟩

/-- C7: `skipToNextFastaRecord` consumes bytes until it reads a `'>'`
(byte 62) and returns it, or returns -1 when the stream runs out with
no `'>'` remaining; it returns no other value, and — being a total
structurally recursive function — it terminates on every finite
stream. -/
theorem skipToNextFastaRecord_spec (s : List Nat) :
    skipToNextFastaRecord s =
      (if 62 ∈ s then (62 : Int) else -1,
       (s.dropWhile (fun c => c ≠ 62)).tail) := by
  induction s with
  | nil => simp [skipToNextFastaRecord]
  | cons c rest ih =>
    by_cases hc : c = 62
    · subst hc
      simp [skipToNextFastaRecord, List.dropWhile_cons]
    · have hc' : ¬(62 = c ∨ 62 ∈ rest) ↔ ¬(62 ∈ rest) := by
        constructor
        · exact fun h hm => h (Or.inr hm)
        · rintro h (h1 | h2)
          · exact hc h1.symm
          · exact h h2
      simp only [skipToNextFastaRecord, hc, if_false, List.dropWhile_cons,
        ih, List.mem_cons]
      by_cases hm : 62 ∈ rest
      · simp [hm, hc]
      · rw [if_neg hm, if_neg (hc'.mpr hm)]
        simp [hc]

/-- Helper for C3: the granted ids starting from counter value `n` are
exactly `[n, n + sum)`. -/
theorem grantedIds_eq_range (n : Nat) (ks : List Nat) :
    grantedIds n ks = List.range' n ks.sum := by
  induction ks generalizing n with
  | nil => simp [grantedIds]
  | cons k ks ih =>
    show List.range' n k ++ grantedIds (n + k) ks = _
    rw [ih]
    have h := List.range'_append n k (List.sum ks) 1
    simp only [Nat.one_mul] at h
    rw [h, List.sum_cons, Nat.add_comm]

/-- C3: read ids are assigned in contiguous per-batch ranges — a grant
of `k` reads reserves `[n, n + k)` where `n` is the reads counted so
far — so over a whole run the granted ids form the contiguous range
`[skip, skip + total)` with no gaps or duplicates. -/
theorem grantedIds_contiguous (skip : Nat) (ks : List Nat) :
    grantedIds skip ks = List.range' skip ks.sum ∧
      (grantedIds skip ks).Nodup := by
  refine ⟨grantedIds_eq_range skip ks, ?_⟩
  rw [grantedIds_eq_range skip ks]
  exact List.nodup_range' skip ks.sum 1 (by norm_num)

/-- C4: for a per-thread buffer whose base id has been set (`rdid_`
distinct from the 64-bit MAX sentinel), the id returned for the read at
the cursor is `rdid_ + cur_buf_`; after `reset()` the base id holds the
MAX sentinel, i.e. exactly the state the `assert_neq` in `rdid()`
rejects. -/
theorem rdid_eq_base_plus_cursor (pt : PerThreadReadBuf)
    (_h1 : pt.rdid_ ≠ TReadIdMax)
    (h2 : pt.rdid_ + pt.cur_buf_ < 2 ^ 64) :
    pt.rdid = pt.rdid_ + pt.cur_buf_ ∧ pt.reset.rdid_ = TReadIdMax :=
  ⟨Nat.mod_eq_of_lt h2, rfl⟩

/-- Witness for C4 at a concrete buffer: base id 5, cursor 3. -/
theorem rdid_eq_base_plus_cursor_witness :
    (sampleBufId.rdid_ ≠ TReadIdMax ∧
      sampleBufId.rdid_ + sampleBufId.cur_buf_ < 2 ^ 64) ∧
    (sampleBufId.rdid = sampleBufId.rdid_ + sampleBufId.cur_buf_ ∧
      sampleBufId.reset.rdid_ = TReadIdMax) :=
  ⟨⟨by decide, by decide⟩,
   rdid_eq_base_plus_cursor sampleBufId (by decide) (by decide)⟩

/-- C10: both composers' `parse` delegates to the parse function of
the source at index 0, independently of the round-robin cursor `cur_`
and (for Dual) of the mate-b vector; so for a fixed first source the
result is the same whatever per-source state the other sources are
in. -/
theorem composer_parse_first (env : ParseEnv) (cur cur' : Nat)
    (src srcb srcb' : List SrcPtr) (ra rb : Read) (rdid : Nat)
    (x : Nat) (hx : src.getD 0 none = some x) :
    SoloPatternComposer.parse env ⟨cur, src⟩ ra rb rdid = env x ra rb rdid ∧
    SoloPatternComposer.parse env ⟨cur', src⟩ ra rb rdid = env x ra rb rdid ∧
    DualPatternComposer.parse env ⟨cur, src, srcb⟩ ra rb rdid
      = env x ra rb rdid ∧
    DualPatternComposer.parse env ⟨cur', src, srcb'⟩ ra rb rdid
      = env x ra rb rdid := by
  cases src with
  | nil => simp [List.getD] at hx
  | cons s0 tl =>
    have hs0 : s0 = some x := by simpa [List.getD] using hx
    subst hs0
    refine ⟨?_, ?_, ?_, ?_⟩ <;>
      simp [SoloPatternComposer.parse, DualPatternComposer.parse, List.getD]

/-- Witness for C10 at a concrete environment and source list. -/
theorem composer_parse_first_witness :
    ([some 7] : List SrcPtr).getD 0 none = some 7 ∧
    (SoloPatternComposer.parse sampleParseEnv ⟨0, [some 7]⟩ sampleRead
        sampleRead 4 = sampleParseEnv 7 sampleRead sampleRead 4 ∧
     SoloPatternComposer.parse sampleParseEnv ⟨3, [some 7]⟩ sampleRead
        sampleRead 4 = sampleParseEnv 7 sampleRead sampleRead 4 ∧
     DualPatternComposer.parse sampleParseEnv ⟨0, [some 7], [none]⟩
        sampleRead sampleRead 4 = sampleParseEnv 7 sampleRead sampleRead 4 ∧
     DualPatternComposer.parse sampleParseEnv ⟨3, [some 7], [some 9]⟩
        sampleRead sampleRead 4 = sampleParseEnv 7 sampleRead sampleRead 4) :=
  ⟨rfl, composer_parse_first sampleParseEnv 0 3 [some 7] [none] [some 9]
    sampleRead sampleRead 4 7 rfl⟩

/-- C6: for every `sampleLen` and `sampleFreq`, the
`FastaContinuousPatternSource` constructor assertions hold exactly when
`sampleLen ≤ 1024` and `sampleFreq ≥ 1` — in particular they fail
whenever `sampleLen > 1024` or `sampleFreq = 0`; and under the
precondition `sampleLen ≤ 1024`, every position of the internal window
(a ring of size `sampleLen`) lies inside the 1024-byte `buf_`. -/
theorem fastaContinuous_ctor_safe (L F : Nat) :
    (fastaContinuousCtorAsserts L F = true ↔ (L ≤ 1024 ∧ 1 ≤ F)) ∧
    (L ≤ 1024 →
      (windowIndices L).all (fun i => decide (i < 1024)) = true) := by
  constructor
  · simp only [fastaContinuousCtorAsserts, Bool.and_eq_true,
      decide_eq_true_eq]
    constructor
    · exact fun hh => ⟨hh.2, hh.1⟩
    · exact fun hh => ⟨hh.2, hh.1⟩
  · intro h
    simp only [windowIndices, List.all_eq_true, decide_eq_true_eq]
    intro i hi
    have := List.mem_range.mp hi
    omega

/-- Witness for C6 at the extreme allowed window length, with the
in-bounds precondition discharged. -/
theorem fastaContinuous_ctor_safe_witness :
    (fastaContinuousCtorAsserts 1024 1 = true ↔ (1024 ≤ 1024 ∧ 1 ≤ 1)) ∧
    (windowIndices 1024).all (fun i => decide (i < 1024)) = true :=
  ⟨(fastaContinuous_ctor_safe 1024 1).1,
   (fastaContinuous_ctor_safe 1024 1).2 (by decide)⟩

/-- C2: for a nonempty per-thread batch buffer, `exhausted()` returns
true exactly when the cursor is at or past the second-to-last slot or
the next slot's raw buffer is empty; in particular, with the cursor on
the last slot of a completely full batch, `exhausted()` already
returns true. -/
theorem exhausted_iff_claimed (pt : PerThreadReadBuf)
    (h : 1 ≤ pt.bufa_.length) :
    (pt.exhausted = true ↔ exhaustedClaimed pt) ∧
    (pt.cur_buf_ = pt.bufa_.length - 1 → pt.exhausted = true) := by
  constructor
  · unfold PerThreadReadBuf.exhausted exhaustedClaimed
    by_cases hc : pt.cur_buf_ ≥ pt.bufa_.length - 1
    · simp [hc]
    · have hlt : pt.cur_buf_ + 1 < pt.bufa_.length := by omega
      simp only [hc, decide_eq_true_eq, Bool.or_eq_true, List.isEmpty_iff,
        false_or]
      rw [List.getD_eq_getElem pt.bufa_ default hlt]
      constructor
      · intro he
        exact ⟨hlt, by simpa [List.get_eq_getElem] using he⟩
      · intro hex
        exact hex.elim fun hl he => by
          simpa [List.get_eq_getElem] using he
  · intro hc
    unfold PerThreadReadBuf.exhausted
    have : pt.cur_buf_ ≥ pt.bufa_.length - 1 := le_of_eq hc.symm
    simp [this]

/-- Witness for C2: a full batch of two reads with the cursor on the
last slot is already exhausted. -/
theorem exhausted_iff_claimed_witness :
    1 ≤ sampleBufFull.bufa_.length ∧
    ((sampleBufFull.exhausted = true ↔ exhaustedClaimed sampleBufFull) ∧
     (sampleBufFull.cur_buf_ = sampleBufFull.bufa_.length - 1 →
       sampleBufFull.exhausted = true)) :=
  ⟨by decide, exhausted_iff_claimed sampleBufFull (by decide)⟩

/-- Helper for C9: right after a `get()`, the single pushback slot is
free. -/
theorem ByteReader.get_pushback_none (r : ByteReader) :
    (r.get).2.pushback = none := by
  unfold ByteReader.get
  cases hp : r.pushback with
  | some b => rfl
  | none => cases r.stream <;> simp [hp]

/-- Helper for C9: on a reader with a free pushback slot, `unget b`
for a non-EOF `b` succeeds and the next `get` returns `b`. -/
theorem ByteReader.unget_get_roundtrip (r : ByteReader) (b : Int)
    (hb : b ≠ -1) (hfree : r.pushback = none) :
    (r.unget b).1 = b ∧ ((r.unget b).2.get).1 = b := by
  unfold ByteReader.unget
  have hcond : ¬(b = -1 ∨ r.pushback ≠ none) := by
    rintro (h1 | h2)
    · exact hb h1
    · exact h2 hfree
  rw [if_neg hcond]
  exact ⟨rfl, rfl⟩

/-- C9: for every open reader and every byte `b` just returned by
`getc_wrapper` (so `b` is a real byte, not EOF), `ungetc_wrapper b`
succeeds and the next `getc_wrapper` returns `b` again — the
single-slot pushback round-trip — in both the plain-file and the
gzip-backed variant. -/
theorem getc_unget_roundtrip (s s' : CFileStream) (b : Int)
    (h : getc_wrapper s = (b, s')) (hb : b ≠ -1) :
    (ungetc_wrapper b s').1 = b ∧
    (getc_wrapper (ungetc_wrapper b s').2).1 = b := by
  rcases s with ⟨comp, fp, zfp⟩
  cases comp
  · -- plain-file variant
    have hs' : s' = ⟨false, fp.get.2, zfp⟩ := (congrArg Prod.snd h).symm
    subst hs'
    have hfree := ByteReader.get_pushback_none fp
    have hu := ByteReader.unget_get_roundtrip fp.get.2 b hb hfree
    exact ⟨hu.1, hu.2⟩
  · -- gzip-backed variant
    have hs' : s' = ⟨true, fp, zfp.get.2⟩ := (congrArg Prod.snd h).symm
    subst hs'
    have hfree := ByteReader.get_pushback_none zfp
    have hu := ByteReader.unget_get_roundtrip zfp.get.2 b hb hfree
    exact ⟨hu.1, hu.2⟩

/-- Witness for C9 on a concrete gzip-backed stream delivering byte
66. -/
theorem getc_unget_roundtrip_witness :
    (getc_wrapper sampleGzStream = (66, sampleGzAfter) ∧ (66 : Int) ≠ -1) ∧
    ((ungetc_wrapper 66 sampleGzAfter).1 = 66 ∧
     (getc_wrapper (ungetc_wrapper 66 sampleGzAfter).2).1 = 66) :=
  ⟨⟨by decide, by decide⟩,
   getc_unget_roundtrip sampleGzStream sampleGzAfter 66 (by decide)
     (by decide)⟩

/-- Helper for C5: one reset iteration only ever writes the value 0. -/
theorem resetPair_val (h : Nat → Nat) (p : SrcPtr × SrcPtr) (x : Nat) :
    resetPair h p x = h x ∨ resetPair h p x = 0 := by
  rcases p with ⟨a, c⟩
  rcases a with _ | a <;> rcases c with _ | c <;>
    simp only [resetPair, Function.update_apply] <;>
    (try split_ifs) <;> simp

/-- Helper for C5: a source named by either member of the pair is
cleared by the iteration. -/
theorem resetPair_sets (h : Nat → Nat) (p : SrcPtr × SrcPtr) (x : Nat)
    (hx : p.1 = some x ∨ p.2 = some x) : resetPair h p x = 0 := by
  rcases p with ⟨a, c⟩
  rcases hx with hx | hx
  · cases hx
    rcases c with _ | y <;>
      simp only [resetPair, Function.update_apply] <;> split_ifs <;> simp
  · cases hx
    rcases a with _ | y <;>
      simp only [resetPair, Function.update_apply] <;> split_ifs <;> simp

/-- Helper for C5: the reset loop leaves a counter alone or clears it. -/
theorem foldl_resetPair_val (l : List (SrcPtr × SrcPtr)) (h : Nat → Nat)
    (x : Nat) :
    (l.foldl resetPair h) x = h x ∨ (l.foldl resetPair h) x = 0 := by
  induction l generalizing h with
  | nil => exact Or.inl rfl
  | cons p t ih =>
    rcases ih (resetPair h p) with hv | hv
    · rw [List.foldl_cons]
      rcases resetPair_val h p x with hw | hw
      · exact Or.inl (hv.trans hw)
      · exact Or.inr (hv.trans hw)
    · exact Or.inr hv

/-- Helper for C5: a source named by a member of any processed pair is
cleared by the reset loop. -/
theorem foldl_resetPair_mem (l : List (SrcPtr × SrcPtr)) (h : Nat → Nat)
    (x : Nat) (hx : ∃ p ∈ l, p.1 = some x ∨ p.2 = some x) :
    (l.foldl resetPair h) x = 0 := by
  induction l generalizing h with
  | nil =>
    obtain ⟨p, hp, _⟩ := hx
    exact absurd hp (List.not_mem_nil p)
  | cons q t ih =>
    obtain ⟨p, hp, hpx⟩ := hx
    rcases List.mem_cons.mp hp with hq | ht
    · subst hq
      rw [List.foldl_cons]
      rcases foldl_resetPair_val t (resetPair h p) x with hv | hv
      · exact hv.trans (resetPair_sets h p x hpx)
      · exact hv
    · rw [List.foldl_cons]
      exact ih (resetPair h q) ⟨p, ht, hpx⟩

/-- Helper for C5: in lists of equal length, every element on the left
is the left member of some zipped pair. -/
theorem mem_zip_of_mem_left (la lb : List SrcPtr)
    (hlen : la.length = lb.length) (a : SrcPtr) (ha : a ∈ la) :
    ∃ p ∈ la.zip lb, p.1 = a := by
  induction la generalizing lb with
  | nil => exact absurd ha (List.not_mem_nil a)
  | cons x t ih =>
    cases lb with
    | nil => simp at hlen
    | cons y tb =>
      rcases List.mem_cons.mp ha with hx | hmem
      · exact ⟨(x, y), List.mem_cons_self _ _, hx.symm⟩
      · obtain ⟨p, hp, hpa⟩ := ih tb (by simpa using hlen) hmem
        exact ⟨p, List.mem_cons_of_mem _ hp, hpa⟩

/-- Helper for C5: the mirror image on the right. -/
theorem mem_zip_of_mem_right (la lb : List SrcPtr)
    (hlen : la.length = lb.length) (b : SrcPtr) (hb : b ∈ lb) :
    ∃ p ∈ la.zip lb, p.2 = b := by
  induction la generalizing lb with
  | nil =>
    cases lb with
    | nil => exact absurd hb (List.not_mem_nil b)
    | cons y tb => simp at hlen
  | cons x t ih =>
    cases lb with
    | nil => exact absurd hb (List.not_mem_nil b)
    | cons y tb =>
      rcases List.mem_cons.mp hb with hy | hmem
      · exact ⟨(x, y), List.mem_cons_self _ _, hy.symm⟩
      · obtain ⟨p, hp, hpb⟩ := ih tb (by simpa using hlen) hmem
        exact ⟨p, List.mem_cons_of_mem _ hp, hpb⟩

/-- C5: a `DualPatternComposer` is only constructed over parallel
vectors of identical length with every mate-a pointer non-NULL and no
pointer shared between the two vectors (the constructor's assertions);
and `reset` keeps the pairing — it leaves both vectors in place, sets
the common lockstep cursor to 0 and clears the `readCnt_` of both
members of every pair. -/
theorem dualComposer_ctor_reset (c : DualPatternComposer) (h : Nat → Nat)
    (hok : dualCtorAsserts c.srca_ c.srcb_ = true) :
    c.srca_.length = c.srcb_.length ∧
    (∀ a ∈ c.srca_, a.isSome = true) ∧
    (∀ a ∈ c.srca_, ∀ b ∈ c.srcb_, a ≠ b) ∧
    (c.reset h).1.cur_ = 0 ∧
    (c.reset h).1.srca_ = c.srca_ ∧
    (c.reset h).1.srcb_ = c.srcb_ ∧
    (∀ x, some x ∈ c.srca_ → (c.reset h).2 x = 0) ∧
    (∀ y, some y ∈ c.srcb_ → (c.reset h).2 y = 0) := by
  simp only [dualCtorAsserts, Bool.and_eq_true, decide_eq_true_eq,
    List.all_eq_true] at hok
  obtain ⟨⟨hlen, hsome⟩, hne⟩ := hok
  refine ⟨hlen, hsome, ?_, rfl, rfl, rfl, ?_, ?_⟩
  · intro a ha b hb
    exact hne a ha b hb
  · intro x hx
    obtain ⟨p, hp, hpa⟩ := mem_zip_of_mem_left c.srca_ c.srcb_ hlen _ hx
    exact foldl_resetPair_mem _ h x ⟨p, hp, Or.inl hpa⟩
  · intro y hy
    obtain ⟨p, hp, hpb⟩ := mem_zip_of_mem_right c.srca_ c.srcb_ hlen _ hy
    exact foldl_resetPair_mem _ h y ⟨p, hp, Or.inr hpb⟩

/-- Witness for C5 on a one-pair composer at addresses 1 and 2 over a
heap of all-9 counters. -/
theorem dualComposer_ctor_reset_witness :
    dualCtorAsserts sampleDual.srca_ sampleDual.srcb_ = true ∧
    (sampleDual.srca_.length = sampleDual.srcb_.length ∧
     (∀ a ∈ sampleDual.srca_, a.isSome = true) ∧
     (∀ a ∈ sampleDual.srca_, ∀ b ∈ sampleDual.srcb_, a ≠ b) ∧
     (sampleDual.reset sampleHeap).1.cur_ = 0 ∧
     (sampleDual.reset sampleHeap).1.srca_ = sampleDual.srca_ ∧
     (sampleDual.reset sampleHeap).1.srcb_ = sampleDual.srcb_ ∧
     (∀ x, some x ∈ sampleDual.srca_ →
       (sampleDual.reset sampleHeap).2 x = 0) ∧
     (∀ y, some y ∈ sampleDual.srcb_ →
       (sampleDual.reset sampleHeap).2 y = 0)) :=
  ⟨by decide, dualComposer_ctor_reset sampleDual sampleHeap (by decide)⟩

/-- Helper for C1: the extension is empty exactly when the filename has
no dot at all or ends with a dot. -/
theorem extOf_eq_nil_iff (f : List Char) :
    extOf f = [] ↔ ('.' ∉ f ∨ f.getLast? = some '.') := by
  unfold extOf
  by_cases hf : '.' ∈ f
  · rw [if_pos hf, List.reverse_eq_nil_iff, List.getLast?_eq_head?_reverse]
    cases hr : f.reverse with
    | nil =>
      exfalso
      rw [List.reverse_eq_nil_iff] at hr
      rw [hr] at hf
      exact List.not_mem_nil _ hf
    | cons a t =>
      rw [List.takeWhile_cons]
      by_cases ha : a = '.'
      · subst ha
        simp [hf]
      · simp [hf, ha]
  · rw [if_neg hf]
    simp [hf]

/-- Helper for C1: for a nonempty candidate extension `e` containing
no dot, the extension equals `e` exactly when the filename ends in
`.e`. -/
theorem extOf_eq_iff_suffix (f e : List Char) (he : '.' ∉ e)
    (hne : e ≠ []) :
    extOf f = e ↔ ('.' :: e) <:+ f := by
  unfold extOf
  by_cases hf : '.' ∈ f
  · rw [if_pos hf]
    constructor
    · intro hrev
      have h1 : f.reverse.takeWhile (fun c => (c ≠ '.' : Bool)) = e.reverse := by
        rw [← hrev, List.reverse_reverse]
      have hdmem : '.' ∈ f.reverse := List.mem_reverse.mpr hf
      have hdne : f.reverse.dropWhile (fun c => (c ≠ '.' : Bool)) ≠ [] := by
        intro h0
        have h2 := List.dropWhile_eq_nil_iff.mp h0 '.' hdmem
        simp at h2
      have hhead := List.head_dropWhile_not
        (fun c => (c ≠ '.' : Bool)) f.reverse hdne
      obtain ⟨d, t2, hd⟩ := List.exists_cons_of_ne_nil hdne
      have hsplit := List.takeWhile_append_dropWhile
        (fun c => (c ≠ '.' : Bool)) f.reverse
      rw [h1, hd] at hsplit
      have h3 : (f.reverse.dropWhile (fun c => (c ≠ '.' : Bool))).head hdne
          = d := by
        simp only [hd, List.head_cons]
      rw [h3] at hhead
      have hd2 : d = '.' := by simpa using hhead
      rw [hd2] at hsplit
      refine ⟨t2.reverse, ?_⟩
      have h4 := congrArg List.reverse hsplit
      rw [List.reverse_reverse] at h4
      rw [← h4]
      simp [List.reverse_append]
    · rintro ⟨u, hu⟩
      rw [← hu, List.reverse_append, List.reverse_cons, List.append_assoc,
        List.takeWhile_append_of_pos ?hall]
      case hall =>
        intro x hx
        have hxe : x ∈ e := List.mem_reverse.mp hx
        simp only [decide_eq_true_eq]
        intro hxx
        exact he (hxx ▸ hxe)
      rw [List.singleton_append, List.takeWhile_cons]
      simp
  · rw [if_neg hf]
    constructor
    · intro h
      exact absurd h.symm hne
    · rintro ⟨u, hu⟩
      exfalso
      apply hf
      rw [← hu]
      simp

/-- Counterexample to C1 as stated: the filename `reads` has no
extension at all, is no FIFO, yet `is_gzipped_file` returns true — the
claim demands false there. -/
theorem is_gzipped_file_noext_counterexample :
    is_gzipped_file true false ['r', 'e', 'a', 'd', 's'] = true ∧
    is_gzipped_claimed false ['r', 'e', 'a', 'd', 's'] = false := by
  constructor
  · rfl
  · rfl

/-- C1 amended: a file is treated as gzip-compressed iff the path is a
FIFO (with `stat` succeeding), or the filename ends in `.gz` or `.Z`,
or its extension is empty — it contains no dot at all or ends with a
dot. -/
theorem is_gzipped_file_amended_eq (statOk isFifo : Bool)
    (f : List Char) :
    is_gzipped_file statOk isFifo f
      = is_gzipped_amended (statOk && isFifo) f := by
  unfold is_gzipped_file is_gzipped_amended
  by_cases hsf : (statOk && isFifo) = true
  · rw [if_pos hsf, hsf]
    simp
  · have hsf' : (statOk && isFifo) = false := Bool.eq_false_iff.mpr hsf
    rw [if_neg hsf, hsf']
    simp only [Bool.false_or]
    rw [Bool.eq_iff_iff]
    simp only [decide_eq_true_eq, Bool.or_eq_true, Bool.not_eq_true',
      decide_eq_false_iff_not, List.isSuffixOf_iff_suffix]
    rw [extOf_eq_nil_iff f,
      extOf_eq_iff_suffix f ['g', 'z'] (by decide) (by decide),
      extOf_eq_iff_suffix f ['Z'] (by decide) (by decide)]
    tauto

end Pat
